import Mathlib

/-!
Shallow embedding of the ADC driver (src/adc.rs) and the task
notification / yield primitives (src/task.rs) of the esp-idf-hal crate,
together with theorems settling the specification claims.

Conventions of the embedding:
* `c_int` / `esp_err_t` / `BaseType_t` values are modelled as `Int`;
  unsigned machine integers as `Nat` with explicit `% 2 ^ 32` / `% 2 ^ 16`
  where the source narrows or wraps.
* External SDK calls (efuse check, characterization, calibrated
  conversion, raw acquisition) are modelled by an environment record of
  response functions indexed by the call count, threaded through an
  explicit driver state.  The counters `charCount` / `rawCount` in the
  state index those call streams and record how many external
  characterization / raw-read calls were made.
* A Rust `panic!` (and an out-of-bounds array index) is modelled by the
  distinguished result `fault`, kept apart from recoverable `err` codes.
-/

namespace EspIdfHal

/-- The device families the source is compiled for (`cfg(esp32)`,
`cfg(esp32c3)`, `cfg(esp32s2)`, `cfg(esp32s3)`).  esp32c3 and esp32s2
share one voltage table in `get_max_mv`. -/
inductive Family where
  | esp32
  | esp32c3
  | esp32s2
  | esp32s3
deriving DecidableEq, Repr

/-- Embedding of `config::Resolution` from src/adc.rs: the sampling resolution variants
(each `cfg`-gated to particular families). -/
inductive Resolution where
  | Resolution9Bit
  | Resolution10Bit
  | Resolution11Bit
  | Resolution12Bit
  | Resolution13Bit
deriving DecidableEq, Repr

/-- Which `Resolution` variants exist on which family, following the
`cfg` gates on the enum variants in src/adc.rs. -/
def Resolution.availableOn : Resolution → Family → Bool
  | .Resolution9Bit, .esp32 => true
  | .Resolution10Bit, .esp32 => true
  | .Resolution11Bit, .esp32 => true
  | .Resolution12Bit, .esp32 => true
  | .Resolution12Bit, .esp32c3 => true
  | .Resolution12Bit, .esp32s3 => true
  | .Resolution13Bit, .esp32s2 => true
  | _, _ => false

/-- The bit width of a resolution variant (the `N` of `ResolutionNBit`,
matching `adc_bits_width_t_ADC_WIDTH_BIT_N`). -/
def Resolution.bits : Resolution → Nat
  | .Resolution9Bit => 9
  | .Resolution10Bit => 10
  | .Resolution11Bit => 11
  | .Resolution12Bit => 12
  | .Resolution13Bit => 13

/-- Modelled from the spec: the phrase "the maximum raw value for the
configured resolution of the handle", i.e. `2 ^ bits - 1`.  This
definition follows the words of the specification and exists to be
compared with the family-wide source constant `MAX_READING`. -/
def maxRawForResolution (r : Resolution) : Nat := 2 ^ r.bits - 1

/-- Embedding of `AdcDriver::MAX_READING`: 8191 under `cfg(esp32s2)`, 4095 otherwise.
A compile-time constant of the family, independent of the configured
resolution. -/
def MAX_READING : Family → Nat
  | .esp32s2 => 8191
  | _ => 4095

/-- Embedding of `AdcDriver::get_max_mv`: the per-family table from attenuation code
(`adc_atten_t`: 0 ↦ 0dB, 1 ↦ 2.5dB, 2 ↦ 6dB, 3 ↦ 11dB) to the maximum
input voltage in millivolts.  `none` models the `panic!("Unknown
attenuation")` arm: an unrecoverable fault, not a recoverable error. -/
def get_max_mv (fam : Family) (attenuation : Nat) : Option Nat :=
  match fam with
  | .esp32 =>
    match attenuation with
    | 0 => some 950
    | 1 => some 1250
    | 2 => some 1750
    | 3 => some 2450
    | _ => none
  | .esp32c3 =>
    match attenuation with
    | 0 => some 750
    | 1 => some 1050
    | 2 => some 1300
    | 3 => some 2500
    | _ => none
  | .esp32s2 =>
    match attenuation with
    | 0 => some 750
    | 1 => some 1050
    | 2 => some 1300
    | 3 => some 2500
    | _ => none
  | .esp32s3 =>
    match attenuation with
    | 0 => some 950
    | 1 => some 1250
    | 2 => some 1750
    | 3 => some 3100
    | _ => none

/-- The SDK constant `ESP_ERR_INVALID_STATE` (0x103). -/
def ESP_ERR_INVALID_STATE : Int := 259

/-- Embedding of `esp_adc_cal_characteristics_t`: opaque curve-fit data, modelled by
its bit pattern. -/
abbrev Cal := Nat

/-- Reinterpretation of an `i32` value as `u32` (`measurement as u32`). -/
def u32_of_i32 (i : Int) : Nat := (i % (2 ^ 32 : Int)).toNat

/-- Responses of the external SDK collaborators, indexed by call count
where a call site can be reached repeatedly. -/
structure AdcEnv where
  /-- Return code of `esp_adc_cal_check_efuse` (0 = `ESP_OK`). -/
  efuse_result : Int
  /-- Return code of `adc1_config_width` (0 = `ESP_OK`). -/
  adc1_config_width_result : Int
  /-- Characteristics written by the n-th `esp_adc_cal_characterize` call. -/
  characterize : Nat → Cal
  /-- Result of `esp_adc_cal_raw_to_voltage(raw, cal)` (a `u32`). -/
  cal_raw_to_voltage : Cal → Nat → Nat
  /-- Result of `adc1_get_raw(channel)` at the n-th raw acquisition. -/
  adc1_get_raw : Nat → Nat → Int
  /-- Result of `adc2_get_raw(channel, width, &raw)` at the n-th raw acquisition:
  the pair (status code, measurement written through the pointer). -/
  adc2_get_raw : Nat → Resolution → Nat → Int × Int

/-- The state of an `AdcDriver` handle: its configured resolution and the
optional per-attenuation calibration table (array of
`adc_atten_t_ADC_ATTEN_DB_11 + 1 = 4` entries), plus the external-call
counters that index the call streams of the environment. -/
structure AdcDriver where
  resolution : Resolution
  cal_characteristics : Option (Fin 4 → Option Cal)
  charCount : Nat
  rawCount : Nat

/-- Result of a fallible driver operation: `ok`, an `EspError` code, or a
Rust panic (`fault`). -/
inductive Res (α : Type) where
  | ok : α → Res α
  | err : Int → Res α
  | fault : Res α
deriving DecidableEq, Repr

/-- Embedding of `AdcDriver::new`: when calibration is requested, check the efuse data
(propagating a nonzero code as an error); when the unit is the primary
one, program the global resolution width; initialize an empty calibration
table exactly when calibration was requested. -/
def AdcDriver.new (env : AdcEnv) (unitId : Nat) (resolution : Resolution)
    (calibration : Bool) : Res AdcDriver :=
  if calibration = true ∧ env.efuse_result ≠ 0 then
    Res.err env.efuse_result
  else if unitId = 1 ∧ env.adc1_config_width_result ≠ 0 then
    Res.err env.adc1_config_width_result
  else
    Res.ok
      { resolution := resolution
        cal_characteristics := if calibration then some (fun _ => none) else none
        charCount := 0
        rawCount := 0 }

/-- Embedding of `AdcDriver::get_cal_characteristics`: with no calibration table,
return `ok none`; with a table, a populated entry is returned as is, and
a missing entry re-checks the efuse (propagating a nonzero code as an
error), invokes the characterization routine once and stores its result.
Indexing the 4-entry table with an attenuation ≥ 4 is the out-of-bounds
panic of the source, modelled as `fault`. -/
def get_cal_characteristics (env : AdcEnv) (s : AdcDriver)
    (attenuation : Nat) : Res (Option Cal) × AdcDriver :=
  match s.cal_characteristics with
  | some characteristics =>
    if h : attenuation < 4 then
      match characteristics ⟨attenuation, h⟩ with
      | some cal => (Res.ok (some cal), s)
      | none =>
        if env.efuse_result = 0 then
          let cal : Cal := env.characterize s.charCount
          (Res.ok (some cal),
            { s with
              cal_characteristics :=
                some (fun i => if i.val = attenuation then some cal
                               else characteristics i)
              charCount := s.charCount + 1 })
        else
          (Res.err env.efuse_result, s)
    else
      (Res.fault, s)
  | none => (Res.ok none, s)

/-- Embedding of `AdcDriver::raw_to_voltage`: apply the calibration characteristics
when available (`esp_adc_cal_raw_to_voltage(...) as u16`), otherwise the
linear scale `(measurement as u32 * get_max_mv(atten) / MAX_READING) as
u16` (u32 arithmetic — the product wraps at `2 ^ 32` — then narrowed to
u16).  The unknown-attenuation panic of `get_max_mv` is `fault`. -/
def raw_to_voltage (fam : Family) (env : AdcEnv) (s : AdcDriver)
    (measurement : Int) (attenuation : Nat) : Res Nat × AdcDriver :=
  match get_cal_characteristics env s attenuation with
  | (Res.ok (some cal), s1) =>
    (Res.ok (env.cal_raw_to_voltage cal (u32_of_i32 measurement) % 2 ^ 16), s1)
  | (Res.ok none, s1) =>
    match get_max_mv fam attenuation with
    | some maxMv =>
      (Res.ok (u32_of_i32 measurement * maxMv % 2 ^ 32 / MAX_READING fam % 2 ^ 16), s1)
    | none => (Res.fault, s1)
  | (Res.err e, s1) => (Res.err e, s1)
  | (Res.fault, s1) => (Res.fault, s1)

/-- The `nb::Result<u16, EspError>` of `AdcDriver::read`, extended with
`fault` for panics. -/
inductive ReadRes where
  | ok : Nat → ReadRes
  | wouldBlock : ReadRes
  | err : Int → ReadRes
  | fault : ReadRes
deriving DecidableEq, Repr

/-- Lift a conversion result into a read result. -/
def toReadRes : Res Nat × AdcDriver → ReadRes × AdcDriver
  | (Res.ok v, s) => (ReadRes.ok v, s)
  | (Res.err e, s) => (ReadRes.err e, s)
  | (Res.fault, s) => (ReadRes.fault, s)

/-- Embedding of `AdcDriver::read`: on the primary unit, acquire a raw sample with
`adc1_get_raw` and convert it.  On the secondary unit, call
`adc2_get_raw`; the status `ESP_ERR_INVALID_STATE` becomes
`nb::Error::WouldBlock`, any negative status becomes a hard error with
that code, and otherwise the written measurement is converted. -/
def read (fam : Family) (env : AdcEnv) (s : AdcDriver)
    (unitId : Nat) (channel : Nat) (atten : Nat) : ReadRes × AdcDriver :=
  if unitId = 1 then
    let measurement := env.adc1_get_raw channel s.rawCount
    let s1 := { s with rawCount := s.rawCount + 1 }
    toReadRes (raw_to_voltage fam env s1 measurement atten)
  else
    let acq := env.adc2_get_raw channel s.resolution s.rawCount
    let s1 := { s with rawCount := s.rawCount + 1 }
    if acq.1 = ESP_ERR_INVALID_STATE then
      (ReadRes.wouldBlock, s1)
    else if acq.1 < 0 then
      (ReadRes.err acq.1, s1)
    else
      toReadRes (raw_to_voltage fam env s1 acq.2 atten)

/-- The driver state after a given number of `read` calls at a fixed
unit, channel and attenuation. -/
def readIter (fam : Family) (env : AdcEnv) (unitId channel atten : Nat) :
    AdcDriver → Nat → AdcDriver
  | s, 0 => s
  | s, k + 1 =>
    readIter fam env unitId channel atten (read fam env s unitId channel atten).2 k

/-! ### src/task.rs -/

/-- The ESP-IDF major version (`cfg(esp_idf_version_major)`), selecting
the default interrupt-yield primitive on non-esp32c3 chips. -/
inductive Idf where
  | v4
  | v5
deriving DecidableEq, Repr

/-- Invocations of the external scheduler primitives, recorded as a
trace. -/
inductive Ev where
  | vPortYield
  | vPortYieldFromISR
  | vPortEvaluateYieldFromISR
  | frxt_setup_switch
  | customYield
  | notifyFromISR : Nat → Nat → Ev
  | notifyTask : Nat → Nat → Ev
deriving DecidableEq, Repr

/-- Whether an event is an invocation of a yield primitive (of either
the task-context or interrupt-context kind). -/
def isYieldEv : Ev → Bool
  | .vPortYield => true
  | .vPortYieldFromISR => true
  | .vPortEvaluateYieldFromISR => true
  | .frxt_setup_switch => true
  | .customYield => true
  | .notifyFromISR _ _ => false
  | .notifyTask _ _ => false

/-- The process-wide context queried by the dispatch layer, together
with the responses of the scheduler primitives. -/
structure SysEnv where
  /-- Value of `interrupt::active()`: the interrupt-context predicate. -/
  active : Bool
  /-- Value of `interrupt::get_isr_yielder().is_some()`: a custom interrupt-yield
  callback is registered. -/
  isr_yielder : Bool
  /-- Return value of `xTaskGenericNotifyFromISR`. -/
  notifyFromISR_ret : Int
  /-- The `higher_prio_task_woken` value written by the ISR notification. -/
  higher_prio_woken : Int
  /-- Return value of `xTaskGenericNotify`. -/
  notify_ret : Int

/-- The default interrupt-yield primitive of each architecture:
`vPortYieldFromISR` under `cfg(esp32c3)`, otherwise
`vPortEvaluateYieldFromISR(0)` on ESP-IDF v4 and `_frxt_setup_switch()`
on v5. -/
def isrDefaultPrim (fam : Family) (idf : Idf) : Ev :=
  match fam, idf with
  | .esp32c3, _ => Ev.vPortYieldFromISR
  | _, .v4 => Ev.vPortEvaluateYieldFromISR
  | _, .v5 => Ev.frxt_setup_switch

/-- Embedding of `task::do_yield`: in interrupt context, invoke the registered custom
yielder if present and otherwise the default, per-architecture
interrupt-yield primitive; in task context, invoke `vPortYield`.  The
result is the trace of primitive invocations. -/
def do_yield (fam : Family) (idf : Idf) (env : SysEnv) : List Ev :=
  if env.active then
    if env.isr_yielder then [Ev.customYield]
    else [isrDefaultPrim fam idf]
  else
    [Ev.vPortYield]

/-- Embedding of `task::notify`: in interrupt context, issue
`xTaskGenericNotifyFromISR` (which reports through
`higher_prio_task_woken`) and call `do_yield` exactly when a
higher-priority task was woken; in task context, issue
`xTaskGenericNotify`.  Returns whether the notification was accepted
(`notified != 0`) together with the trace of primitive invocations. -/
def notify (fam : Family) (idf : Idf) (env : SysEnv)
    (task : Nat) (notification : Nat) : Bool × List Ev :=
  if env.active then
    ((env.notifyFromISR_ret != 0),
      Ev.notifyFromISR task notification ::
        (if env.higher_prio_woken ≠ 0 then do_yield fam idf env else []))
  else
    ((env.notify_ret != 0), [Ev.notifyTask task notification])

/-- Responses of `xTaskGenericNotifyWait`, indexed by call count:
whether the call reported a delivered notification, and the notification
word written through the out-pointer. -/
structure WaitEnv where
  notified : Nat → Bool
  value : Nat → Nat

/-- Embedding of `task::wait_notification`: issue the n-th wait (with the given
timeout; `none` = wait indefinitely) and return the delivered word, or
`none` when the wait reported no notification. -/
def wait_notification (env : WaitEnv) (n : Nat) (_duration : Option Nat) :
    Option Nat :=
  if env.notified n then some (env.value n) else none

/-- The loop body of `task::wait_any_notification`, starting at the n-th
wait call with the given amount of fuel: returns `some (v, m)` when the
loop breaks on a delivered non-zero word `v` after `m` total wait calls,
and `none` when the fuel is exhausted with the loop still running. -/
def wait_any_loop (env : WaitEnv) : Nat → Nat → Option (Nat × Nat)
  | _, 0 => none
  | n, fuel + 1 =>
    match wait_notification env n none with
    | some notification =>
      if notification ≠ 0 then some (notification, n + 1)
      else wait_any_loop env (n + 1) fuel
    | none => wait_any_loop env (n + 1) fuel

/-- Embedding of `task::wait_any_notification`: loop `wait_notification(None)` until a
non-zero word is observed (instrumented with fuel and with the observed
word and the number of wait calls as the result). -/
def wait_any_notification (env : WaitEnv) (fuel : Nat) : Option (Nat × Nat) :=
  wait_any_loop env 0 fuel

/-! ### Equation lemmas for the ADC operations -/

theorem get_cal_none (env : AdcEnv) (s : AdcDriver) (a : Nat)
    (h : s.cal_characteristics = none) :
    get_cal_characteristics env s a = (Res.ok none, s) := by
  simp [get_cal_characteristics, h]

theorem get_cal_hit (env : AdcEnv) (s : AdcDriver) (a : Nat) (h4 : a < 4)
    (tbl : Fin 4 → Option Cal) (c : Cal)
    (h : s.cal_characteristics = some tbl) (hc : tbl ⟨a, h4⟩ = some c) :
    get_cal_characteristics env s a = (Res.ok (some c), s) := by
  simp [get_cal_characteristics, h, h4, hc]

theorem get_cal_miss (env : AdcEnv) (s : AdcDriver) (a : Nat) (h4 : a < 4)
    (tbl : Fin 4 → Option Cal)
    (h : s.cal_characteristics = some tbl) (hc : tbl ⟨a, h4⟩ = none)
    (he : env.efuse_result = 0) :
    get_cal_characteristics env s a =
      (Res.ok (some (env.characterize s.charCount)),
        { s with
          cal_characteristics :=
            some (fun i => if i.val = a then some (env.characterize s.charCount)
                           else tbl i)
          charCount := s.charCount + 1 }) := by
  simp [get_cal_characteristics, h, h4, hc, he]

theorem raw_to_voltage_linear (fam : Family) (env : AdcEnv) (s : AdcDriver)
    (m : Int) (a : Nat) (maxMv : Nat)
    (hcal : s.cal_characteristics = none) (hmv : get_max_mv fam a = some maxMv) :
    raw_to_voltage fam env s m a =
      (Res.ok (u32_of_i32 m * maxMv % 2 ^ 32 / MAX_READING fam % 2 ^ 16), s) := by
  simp [raw_to_voltage, get_cal_none env s a hcal, hmv]

theorem raw_to_voltage_cached (fam : Family) (env : AdcEnv) (s : AdcDriver)
    (m : Int) (a : Nat) (h4 : a < 4) (tbl : Fin 4 → Option Cal) (c : Cal)
    (h : s.cal_characteristics = some tbl) (hc : tbl ⟨a, h4⟩ = some c) :
    raw_to_voltage fam env s m a =
      (Res.ok (env.cal_raw_to_voltage c (u32_of_i32 m) % 2 ^ 16), s) := by
  simp [raw_to_voltage, get_cal_hit env s a h4 tbl c h hc]

theorem raw_to_voltage_first (fam : Family) (env : AdcEnv) (s : AdcDriver)
    (m : Int) (a : Nat) (h4 : a < 4) (tbl : Fin 4 → Option Cal)
    (h : s.cal_characteristics = some tbl) (hc : tbl ⟨a, h4⟩ = none)
    (he : env.efuse_result = 0) :
    raw_to_voltage fam env s m a =
      (Res.ok (env.cal_raw_to_voltage (env.characterize s.charCount)
          (u32_of_i32 m) % 2 ^ 16),
        { s with
          cal_characteristics :=
            some (fun i => if i.val = a then some (env.characterize s.charCount)
                           else tbl i)
          charCount := s.charCount + 1 }) := by
  simp [raw_to_voltage, get_cal_miss env s a h4 tbl h hc he]

theorem read_unit1 (fam : Family) (env : AdcEnv) (s : AdcDriver)
    (channel a : Nat) :
    read fam env s 1 channel a =
      toReadRes (raw_to_voltage fam env { s with rawCount := s.rawCount + 1 }
        (env.adc1_get_raw channel s.rawCount) a) := by
  simp [read]

theorem read_cached (fam : Family) (env : AdcEnv) (s : AdcDriver)
    (channel a : Nat) (h4 : a < 4) (tbl : Fin 4 → Option Cal) (c : Cal)
    (hs : s.cal_characteristics = some tbl) (hc : tbl ⟨a, h4⟩ = some c) :
    read fam env s 1 channel a =
      (ReadRes.ok (env.cal_raw_to_voltage c
          (u32_of_i32 (env.adc1_get_raw channel s.rawCount)) % 2 ^ 16),
        { s with rawCount := s.rawCount + 1 }) := by
  rw [read_unit1,
    raw_to_voltage_cached fam env _ _ a h4 tbl c (by simpa using hs) hc]
  rfl

theorem read_first (fam : Family) (env : AdcEnv) (s : AdcDriver)
    (channel a : Nat) (h4 : a < 4) (tbl : Fin 4 → Option Cal)
    (hs : s.cal_characteristics = some tbl) (hc : tbl ⟨a, h4⟩ = none)
    (he : env.efuse_result = 0) :
    read fam env s 1 channel a =
      (ReadRes.ok (env.cal_raw_to_voltage (env.characterize s.charCount)
          (u32_of_i32 (env.adc1_get_raw channel s.rawCount)) % 2 ^ 16),
        { s with
          cal_characteristics :=
            some (fun i => if i.val = a then some (env.characterize s.charCount)
                           else tbl i)
          charCount := s.charCount + 1
          rawCount := s.rawCount + 1 }) := by
  rw [read_unit1,
    raw_to_voltage_first fam env _ _ a h4 tbl (by simpa using hs) hc he]
  rfl

/-! ### Numeric facts about the voltage table and the linear scale -/

theorem get_max_mv_none (fam : Family) (a : Nat) (h : 4 ≤ a) :
    get_max_mv fam a = none := by
  obtain ⟨n, rfl⟩ : ∃ n, a = n + 4 := ⟨a - 4, by omega⟩
  cases fam <;> rfl

theorem get_max_mv_isSome (fam : Family) (a : Nat) (h : a < 4) :
    ∃ m, get_max_mv fam a = some m := by
  interval_cases a <;> cases fam <;> simp [get_max_mv]

theorem get_max_mv_le (fam : Family) (a m : Nat)
    (h : get_max_mv fam a = some m) : m ≤ 3100 := by
  by_cases h4 : a < 4
  · interval_cases a <;> cases fam <;> simp [get_max_mv] at h <;> omega
  · rw [get_max_mv_none fam a (by omega)] at h
    cases h

theorem MAX_READING_pos (fam : Family) : 0 < MAX_READING fam := by
  cases fam <;> decide

theorem MAX_READING_le (fam : Family) : MAX_READING fam ≤ 8191 := by
  cases fam <;> decide

theorem u32_of_i32_ofNat (n : Nat) (h : n < 2 ^ 32) :
    u32_of_i32 (n : Int) = n := by
  unfold u32_of_i32
  rw [Int.emod_eq_of_lt (by positivity) (by exact_mod_cast h)]
  simp

/-- The u32 linear-scale computation neither wraps at the multiplication
nor truncates at the narrowing to u16, and is bounded by the table
value. -/
theorem linear_mv_eq (fam : Family) (m raw : Nat) (hmv : m ≤ 3100)
    (hraw : raw ≤ MAX_READING fam) :
    raw * m % 2 ^ 32 = raw * m ∧
    raw * m / MAX_READING fam ≤ m ∧
    raw * m / MAX_READING fam % 2 ^ 16 = raw * m / MAX_READING fam := by
  have hM : 0 < MAX_READING fam := MAX_READING_pos fam
  have hM8 : MAX_READING fam ≤ 8191 := MAX_READING_le fam
  have hprod : raw * m ≤ 8191 * 3100 :=
    Nat.mul_le_mul (le_trans hraw hM8) hmv
  have hdiv : raw * m / MAX_READING fam ≤ m := by
    calc raw * m / MAX_READING fam
        ≤ MAX_READING fam * m / MAX_READING fam :=
          Nat.div_le_div_right (Nat.mul_le_mul hraw (le_refl m))
      _ = m := Nat.mul_div_cancel_left m hM
  exact ⟨Nat.mod_eq_of_lt (by omega), hdiv, Nat.mod_eq_of_lt (by omega)⟩

/-! ### Preservation of populated calibration entries -/

theorem toReadRes_snd (x : Res Nat × AdcDriver) : (toReadRes x).2 = x.2 := by
  rcases x with ⟨r, s⟩
  cases r <;> rfl

theorem get_cal_preserves_entry (env : AdcEnv) (s : AdcDriver) (b a : Nat)
    (ha : a < 4) (tbl : Fin 4 → Option Cal) (c : Cal)
    (hs : s.cal_characteristics = some tbl) (hc : tbl ⟨a, ha⟩ = some c) :
    ∃ tbl2, (get_cal_characteristics env s b).2.cal_characteristics = some tbl2 ∧
      tbl2 ⟨a, ha⟩ = some c := by
  unfold get_cal_characteristics
  rw [hs]
  by_cases h4 : b < 4
  · simp only [dif_pos h4]
    rcases htb : tbl ⟨b, h4⟩ with _ | cal
    · by_cases he : env.efuse_result = 0
      · have hab : a ≠ b := by
          intro hEq
          subst hEq
          rw [hc] at htb
          cases htb
        exact ⟨fun i => if i.val = b then some (env.characterize s.charCount)
                        else tbl i,
          by simp [he], by simp [hab, hc]⟩
      · exact ⟨tbl, by simp [he, hs], hc⟩
    · exact ⟨tbl, hs, hc⟩
  · simp only [dif_neg h4]
    exact ⟨tbl, hs, hc⟩

theorem raw_to_voltage_snd (fam : Family) (env : AdcEnv) (s : AdcDriver)
    (m : Int) (b : Nat) :
    (raw_to_voltage fam env s m b).2 = (get_cal_characteristics env s b).2 := by
  unfold raw_to_voltage
  rcases hgc : get_cal_characteristics env s b with ⟨r, s1⟩
  rcases r with v | e
  · rcases v with _ | c
    · rcases get_max_mv fam b with _ | m2 <;> rfl
    · rfl
  · rfl
  · rfl

/-- A `read` at any unit, channel and attenuation never removes or
overwrites a populated calibration entry. -/
theorem read_preserves_entry (fam : Family) (env : AdcEnv) (s : AdcDriver)
    (u ch b a : Nat) (ha : a < 4) (tbl : Fin 4 → Option Cal) (c : Cal)
    (hs : s.cal_characteristics = some tbl) (hc : tbl ⟨a, ha⟩ = some c) :
    ∃ tbl2, (read fam env s u ch b).2.cal_characteristics = some tbl2 ∧
      tbl2 ⟨a, ha⟩ = some c := by
  unfold read
  by_cases hu : u = 1
  · simp only [hu, if_true, eq_self_iff_true, toReadRes_snd, raw_to_voltage_snd]
    exact get_cal_preserves_entry env _ b a ha tbl c (by simpa using hs) hc
  · simp only [if_neg hu]
    by_cases hinv : (env.adc2_get_raw ch s.resolution s.rawCount).1 =
        ESP_ERR_INVALID_STATE
    · simp only [if_pos hinv]
      exact ⟨tbl, by simpa using hs, hc⟩
    · simp only [if_neg hinv]
      by_cases hneg : (env.adc2_get_raw ch s.resolution s.rawCount).1 < 0
      · simp only [if_pos hneg]
        exact ⟨tbl, by simpa using hs, hc⟩
      · simp only [if_neg hneg, toReadRes_snd, raw_to_voltage_snd]
        exact get_cal_preserves_entry env _ b a ha tbl c (by simpa using hs) hc

/-! ### Iterated reads with a populated entry -/

theorem readIter_cached (fam : Family) (env : AdcEnv) (channel a : Nat)
    (h4 : a < 4) (tbl : Fin 4 → Option Cal) (c : Cal)
    (hc : tbl ⟨a, h4⟩ = some c) (k : Nat) :
    ∀ s : AdcDriver, s.cal_characteristics = some tbl →
      readIter fam env 1 channel a s k = { s with rawCount := s.rawCount + k } := by
  induction k with
  | zero =>
    intro s hs
    rfl
  | succ k ih =>
    intro s hs
    rw [readIter, read_cached fam env s channel a h4 tbl c hs hc]
    rw [ih _ (by simpa using hs)]
    simp [Nat.add_assoc, Nat.add_comm 1 k]

/-- A handle successfully created on the primary unit with calibration
enabled: the efuse check and the width configuration succeeded, and the
handle starts with an empty calibration table. -/
theorem new_cal_ok (env : AdcEnv) (r : Resolution) (s0 : AdcDriver)
    (h : AdcDriver.new env 1 r true = Res.ok s0) :
    env.efuse_result = 0 ∧ env.adc1_config_width_result = 0 ∧
      s0 = { resolution := r
             cal_characteristics := some (fun _ => none)
             charCount := 0
             rawCount := 0 } := by
  by_cases h1 : env.efuse_result = 0
  · by_cases h2 : env.adc1_config_width_result = 0
    · refine ⟨h1, h2, ?_⟩
      simp [AdcDriver.new, h1, h2] at h
      exact h.symm
    · simp [AdcDriver.new, h1, h2] at h
  · simp [AdcDriver.new, h1] at h

/-! ### The wait-any loop -/

theorem wait_any_loop_spec (env : WaitEnv) (v : Nat) (hv : v ≠ 0) :
    ∀ (j n : Nat),
      (∀ i, i < j → wait_notification env (n + i) none = none ∨
            wait_notification env (n + i) none = some 0) →
      wait_notification env (n + j) none = some v →
      (∀ fuel, j < fuel → wait_any_loop env n fuel = some (v, n + j + 1)) ∧
      wait_any_loop env n j = none := by
  intro j
  induction j with
  | zero =>
    intro n hfirst hj
    rw [Nat.add_zero] at hj
    refine ⟨?_, rfl⟩
    intro fuel hf
    obtain ⟨f, rfl⟩ : ∃ f, fuel = f + 1 := ⟨fuel - 1, by omega⟩
    simp [wait_any_loop, hj, hv]
  | succ j ih =>
    intro n hfirst hj
    have hshift : ∀ i, i < j → wait_notification env (n + 1 + i) none = none ∨
        wait_notification env (n + 1 + i) none = some 0 := by
      intro i hi
      have := hfirst (i + 1) (by omega)
      rwa [show n + (i + 1) = n + 1 + i by omega] at this
    have hj1 : wait_notification env (n + 1 + j) none = some v := by
      rwa [show n + (j + 1) = n + 1 + j by omega] at hj
    have hrec := ih (n + 1) hshift hj1
    have h0 := hfirst 0 (by omega)
    rw [Nat.add_zero] at h0
    constructor
    · intro fuel hf
      obtain ⟨f, rfl⟩ : ∃ f, fuel = f + 1 := ⟨fuel - 1, by omega⟩
      have hrec1 : wait_any_loop env (n + 1) f = some (v, n + (j + 1) + 1) := by
        rw [hrec.1 f (by omega)]
        rw [show n + 1 + j + 1 = n + (j + 1) + 1 by omega]
      rcases h0 with h | h
      · simp [wait_any_loop, h, hrec1]
      · simp [wait_any_loop, h, hrec1]
    · rcases h0 with h | h
      · simp [wait_any_loop, h, hrec.2]
      · simp [wait_any_loop, h, hrec.2]

/-- The function `do_yield` always invokes exactly one primitive, and it is always a
yield primitive. -/
theorem do_yield_spec (fam : Family) (idf : Idf) (env : SysEnv) :
    ∃ e, do_yield fam idf env = [e] ∧ isYieldEv e = true := by
  unfold do_yield
  by_cases ha : env.active
  · by_cases hy : env.isr_yielder
    · exact ⟨Ev.customYield, by simp [ha, hy], rfl⟩
    · refine ⟨isrDefaultPrim fam idf, by simp [ha, hy], ?_⟩
      cases fam <;> cases idf <;> rfl
  · exact ⟨Ev.vPortYield, by simp [ha], rfl⟩

/-! ### Concrete environments used by witnesses and counterexamples -/

/-- A benign environment: every external call succeeds and returns 0. -/
def env0 : AdcEnv where
  efuse_result := 0
  adc1_config_width_result := 0
  characterize := fun _ => 0
  cal_raw_to_voltage := fun _ _ => 0
  adc1_get_raw := fun _ _ => 0
  adc2_get_raw := fun _ _ _ => (0, 0)

/-- A handle with calibration disabled (no calibration table). -/
def sNoCal : AdcDriver where
  resolution := Resolution.Resolution12Bit
  cal_characteristics := none
  charCount := 0
  rawCount := 0

/-- An esp32 handle configured at 9-bit resolution, calibration disabled,
whose raw acquisition returns the 9-bit full-scale value 511. -/
def envC1 : AdcEnv := { env0 with adc1_get_raw := fun _ _ => 511 }

def sC1 : AdcDriver where
  resolution := Resolution.Resolution9Bit
  cal_characteristics := none
  charCount := 0
  rawCount := 0

/-- An environment whose secondary-unit raw read reports
`ESP_ERR_INVALID_STATE`. -/
def envC3 : AdcEnv :=
  { env0 with adc2_get_raw := fun _ _ _ => (ESP_ERR_INVALID_STATE, 0) }

/-- Interrupt context, no custom yielder, notification accepted, a
higher-priority task woken. -/
def sysEnvIsr : SysEnv where
  active := true
  isr_yielder := false
  notifyFromISR_ret := 1
  higher_prio_woken := 1
  notify_ret := 1

/-- Task context. -/
def sysEnvTask : SysEnv where
  active := false
  isr_yielder := false
  notifyFromISR_ret := 0
  higher_prio_woken := 0
  notify_ret := 1

/-- A waiter that is first woken with the word 0 and then with 2. -/
def waitEnv0 : WaitEnv where
  notified := fun _ => true
  value := fun i => if i = 0 then 0 else 2

/-! ### Claims -/

/-- C8: for each of the four device-family constructors (three distinct
voltage tables: esp32; esp32c3 and esp32s2 shared; esp32s3) and each of
the four attenuation levels, `get_max_mv` returns the documented literal
constant; in particular for esp32: 0dB ↦ 950, 2.5dB ↦ 1250, 6dB ↦ 1750,
11dB ↦ 2450 millivolts. -/
theorem C8_voltage_tables :
    get_max_mv Family.esp32 0 = some 950 ∧
    get_max_mv Family.esp32 1 = some 1250 ∧
    get_max_mv Family.esp32 2 = some 1750 ∧
    get_max_mv Family.esp32 3 = some 2450 ∧
    get_max_mv Family.esp32c3 0 = some 750 ∧
    get_max_mv Family.esp32c3 1 = some 1050 ∧
    get_max_mv Family.esp32c3 2 = some 1300 ∧
    get_max_mv Family.esp32c3 3 = some 2500 ∧
    get_max_mv Family.esp32s2 0 = some 750 ∧
    get_max_mv Family.esp32s2 1 = some 1050 ∧
    get_max_mv Family.esp32s2 2 = some 1300 ∧
    get_max_mv Family.esp32s2 3 = some 2500 ∧
    get_max_mv Family.esp32s3 0 = some 950 ∧
    get_max_mv Family.esp32s3 1 = some 1250 ∧
    get_max_mv Family.esp32s3 2 = some 1750 ∧
    get_max_mv Family.esp32s3 3 = some 3100 := by
  decide

/-- C6: on every family, the maximum-voltage lookup is defined (returns
`some`) exactly on the four attenuation codes 0, 1, 2, 3, and for every
code outside them it reaches the `panic!` arm (modelled `none`, an
unrecoverable abort — `get_max_mv` has no recoverable-error channel at
all). -/
theorem C6_lookup_totality (fam : Family) (attenuation : Nat) :
    ((∃ m, get_max_mv fam attenuation = some m) ↔ attenuation < 4) ∧
    (get_max_mv fam attenuation = none ↔ 4 ≤ attenuation) := by
  constructor
  · constructor
    · rintro ⟨m, hm⟩
      by_contra h4
      rw [get_max_mv_none fam attenuation (by omega)] at hm
      cases hm
    · intro h4
      exact get_max_mv_isSome fam attenuation h4
  · constructor
    · intro h
      by_contra h4
      obtain ⟨m, hm⟩ := get_max_mv_isSome fam attenuation (by omega)
      rw [hm] at h
      cases h
    · intro h
      exact get_max_mv_none fam attenuation h

/-- C5: when the interrupt-context predicate holds, `do_yield` invokes
the registered custom yielder if one is installed and otherwise the
default interrupt-yield primitive of the current architecture, and never
the task-context `vPortYield`; when the predicate does not hold it
invokes exactly `vPortYield`. -/
theorem C5_yield_dispatch (fam : Family) (idf : Idf) (env : SysEnv) :
    do_yield fam idf env =
      (if env.active then
        (if env.isr_yielder then [Ev.customYield] else [isrDefaultPrim fam idf])
       else [Ev.vPortYield]) ∧
    (Ev.vPortYield ∈ do_yield fam idf env ↔ env.active = false) ∧
    (Ev.customYield ∈ do_yield fam idf env ↔
      env.active = true ∧ env.isr_yielder = true) := by
  rcases env with ⟨active, yielder, x1, x2, x3⟩
  cases active <;> cases yielder <;> cases fam <;> cases idf <;>
    simp [do_yield, isrDefaultPrim]

/-- C4: every `notify` made while the interrupt-context predicate is true
issues the interrupt-safe `xTaskGenericNotifyFromISR` (never the
task-context call), returns its acceptance result, and triggers a yield
if and only if the primitive reported that a higher-priority task was
woken. -/
theorem C4_isr_notify (fam : Family) (idf : Idf) (env : SysEnv)
    (task bits : Nat) (hactive : env.active = true) :
    (notify fam idf env task bits).2.head? = some (Ev.notifyFromISR task bits) ∧
    (notify fam idf env task bits).1 = (env.notifyFromISR_ret != 0) ∧
    ((notify fam idf env task bits).2.any isYieldEv = true ↔
      env.higher_prio_woken ≠ 0) ∧
    Ev.notifyTask task bits ∉ (notify fam idf env task bits).2 := by
  obtain ⟨e, he, hye⟩ := do_yield_spec fam idf env
  have hent : ∀ t b, e ≠ Ev.notifyTask t b := by
    intro t b hEq
    rw [hEq] at hye
    cases hye
  by_cases hw : env.higher_prio_woken = 0
  · simp [notify, hactive, hw, isYieldEv]
  · simp [notify, hactive, hw, he, isYieldEv, hye]
    exact ⟨hye, fun hEq => hent task bits hEq.symm⟩

/-- C9: every `notify` made while the interrupt-context predicate is
false issues exactly the task-context `xTaskGenericNotify`, returns its
acceptance result, and invokes no yield primitive of any kind. -/
theorem C9_task_notify (fam : Family) (idf : Idf) (env : SysEnv)
    (task bits : Nat) (hactive : env.active = false) :
    notify fam idf env task bits =
      ((env.notify_ret != 0), [Ev.notifyTask task bits]) ∧
    (notify fam idf env task bits).2.any isYieldEv = false := by
  simp [notify, hactive, isYieldEv]

/-- C3: a secondary-unit `read` whose underlying `adc2_get_raw` call
returns `ESP_ERR_INVALID_STATE` yields `WouldBlock` (distinct from a
hard error), and one whose call returns any negative code yields a hard
error with that code; in both cases exactly one acquisition call is made
(no retry) and the raw-to-millivolt conversion (and hence the linear
fallback) is never reached. -/
theorem C3_secondary_unit_errors (fam : Family) (env : AdcEnv)
    (s : AdcDriver) (channel atten : Nat) (code m : Int)
    (hcall : env.adc2_get_raw channel s.resolution s.rawCount = (code, m))
    (hcode : code = ESP_ERR_INVALID_STATE ∨ code < 0) :
    read fam env s 2 channel atten =
      ((if code = ESP_ERR_INVALID_STATE then ReadRes.wouldBlock
        else ReadRes.err code),
       { s with rawCount := s.rawCount + 1 }) := by
  rcases hcode with h | h
  · simp [read, hcall, h]
  · have h2 : ¬ code = ESP_ERR_INVALID_STATE := by
      unfold ESP_ERR_INVALID_STATE
      omega
    simp [read, hcall, h2, h]

/-- Witness for C3 at a concrete invalid-state response. -/
theorem C3_secondary_unit_errors_witness :
    read Family.esp32 envC3 sNoCal 2 0 3 =
      ((if (ESP_ERR_INVALID_STATE : Int) = ESP_ERR_INVALID_STATE then
          ReadRes.wouldBlock
        else ReadRes.err ESP_ERR_INVALID_STATE),
       { sNoCal with rawCount := sNoCal.rawCount + 1 }) :=
  C3_secondary_unit_errors Family.esp32 envC3 sNoCal 0 3
    ESP_ERR_INVALID_STATE 0 rfl (Or.inl rfl)

/-- Witness for C4 in a concrete interrupt-context environment. -/
theorem C4_isr_notify_witness :
    (notify Family.esp32 Idf.v4 sysEnvIsr 7 5).2.head? =
      some (Ev.notifyFromISR 7 5) ∧
    (notify Family.esp32 Idf.v4 sysEnvIsr 7 5).1 =
      (sysEnvIsr.notifyFromISR_ret != 0) ∧
    ((notify Family.esp32 Idf.v4 sysEnvIsr 7 5).2.any isYieldEv = true ↔
      sysEnvIsr.higher_prio_woken ≠ 0) ∧
    Ev.notifyTask 7 5 ∉ (notify Family.esp32 Idf.v4 sysEnvIsr 7 5).2 :=
  C4_isr_notify Family.esp32 Idf.v4 sysEnvIsr 7 5 rfl

/-- Witness for C9 in a concrete task-context environment. -/
theorem C9_task_notify_witness :
    notify Family.esp32 Idf.v4 sysEnvTask 7 5 =
      ((sysEnvTask.notify_ret != 0), [Ev.notifyTask 7 5]) ∧
    (notify Family.esp32 Idf.v4 sysEnvTask 7 5).2.any isYieldEv = false :=
  C9_task_notify Family.esp32 Idf.v4 sysEnvTask 7 5 rfl

/-- C7: if the wait-call stream delivers its first non-zero word `v` at
call index `j` (all earlier calls delivering no word or the word 0),
then `wait_any_notification` returns exactly after call `j + 1` with `v`,
and with only `j` calls of budget it is still looping. -/
theorem C7_first_nonzero (env : WaitEnv) (j v fuel : Nat) (hv : v ≠ 0)
    (hfirst : ∀ i, i < j → wait_notification env i none = none ∨
        wait_notification env i none = some 0)
    (hj : wait_notification env j none = some v) (hfuel : j < fuel) :
    wait_any_notification env fuel = some (v, j + 1) ∧
    wait_any_notification env j = none := by
  have hmain := wait_any_loop_spec env v hv j 0
    (by simpa using hfirst) (by simpa using hj)
  exact ⟨by simpa using hmain.1 fuel hfuel, hmain.2⟩

/-- Witness for C7: the waiter first receives 0, then 2, and returns at
the second call with 2. -/
theorem C7_first_nonzero_witness :
    wait_any_notification waitEnv0 5 = some (2, 2) ∧
    wait_any_notification waitEnv0 1 = none :=
  C7_first_nonzero waitEnv0 1 2 5 (by decide) (by decide) rfl (by decide)

/-- C1 (counterexample): on an esp32 handle validly configured at 9-bit
resolution with calibration disabled, a full-scale 9-bit sample (raw =
511 = the maximum raw value for the configured resolution) at 11dB
converts to 305 mV, not the 511 * 2450 / 511 = 2450 mV demanded by the
resolution-dependent divisor of the claim: the code divides by the
family-wide constant `MAX_READING` = 4095, not by the maximum of the
configured resolution. -/
theorem C1_counterexample :
    Resolution.availableOn Resolution.Resolution9Bit Family.esp32 = true ∧
    maxRawForResolution Resolution.Resolution9Bit = 511 ∧
    get_max_mv Family.esp32 3 = some 2450 ∧
    (read Family.esp32 envC1 sC1 1 0 3).1 = ReadRes.ok 305 ∧
    511 * 2450 / maxRawForResolution Resolution.Resolution9Bit = 2450 ∧
    (read Family.esp32 envC1 sC1 1 0 3).1 ≠
      ReadRes.ok (511 * 2450 / maxRawForResolution Resolution.Resolution9Bit) := by
  refine ⟨rfl, rfl, rfl, ?_, ?_, ?_⟩ <;> decide

/-- C1 (amended): with no calibration table, for every raw sample in
[0, MAX_READING] and every attenuation among the four defined levels,
the conversion returns exactly `raw * max_mv(attenuation) / MAX_READING`
where `MAX_READING` is the family-wide constant (8191 for the 13-bit
esp32s2 family, 4095 otherwise), independent of the configured
resolution; raw = 0 yields 0 mV and raw = MAX_READING yields
max_mv(attenuation). -/
theorem C1_linear_scale (fam : Family) (env : AdcEnv) (s : AdcDriver)
    (atten raw : Nat) (hcal : s.cal_characteristics = none)
    (ha : atten < 4) (hraw : raw ≤ MAX_READING fam) :
    ∃ maxMv, get_max_mv fam atten = some maxMv ∧
      (raw_to_voltage fam env s (raw : Int) atten).1 =
        Res.ok (raw * maxMv / MAX_READING fam) ∧
      (raw_to_voltage fam env s ((0 : Nat) : Int) atten).1 = Res.ok 0 ∧
      (raw_to_voltage fam env s ((MAX_READING fam : Nat) : Int) atten).1 =
        Res.ok maxMv := by
  obtain ⟨maxMv, hm⟩ := get_max_mv_isSome fam atten ha
  have hle := get_max_mv_le fam atten maxMv hm
  have hM8 := MAX_READING_le fam
  have hMpos := MAX_READING_pos fam
  refine ⟨maxMv, hm, ?_, ?_, ?_⟩
  · rw [raw_to_voltage_linear fam env s _ atten maxMv hcal hm]
    have hu : u32_of_i32 (raw : Int) = raw :=
      u32_of_i32_ofNat raw (by omega)
    have hlin := linear_mv_eq fam maxMv raw hle hraw
    rw [hu, hlin.1, hlin.2.2]
  · rw [raw_to_voltage_linear fam env s _ atten maxMv hcal hm]
    have hu : u32_of_i32 ((0 : Nat) : Int) = 0 :=
      u32_of_i32_ofNat 0 (by norm_num)
    rw [hu]
    simp
  · rw [raw_to_voltage_linear fam env s _ atten maxMv hcal hm]
    have hu : u32_of_i32 ((MAX_READING fam : Nat) : Int) = MAX_READING fam :=
      u32_of_i32_ofNat (MAX_READING fam) (by omega)
    have hlin := linear_mv_eq fam maxMv (MAX_READING fam) hle (le_refl _)
    rw [hu, hlin.1, hlin.2.2, Nat.mul_div_cancel_left maxMv hMpos]

/-- Witness for the amended C1 at esp32, 11dB, raw = 2048. -/
theorem C1_linear_scale_witness :
    ∃ maxMv, get_max_mv Family.esp32 3 = some maxMv ∧
      (raw_to_voltage Family.esp32 env0 sNoCal ((2048 : Nat) : Int) 3).1 =
        Res.ok (2048 * maxMv / MAX_READING Family.esp32) ∧
      (raw_to_voltage Family.esp32 env0 sNoCal ((0 : Nat) : Int) 3).1 =
        Res.ok 0 ∧
      (raw_to_voltage Family.esp32 env0 sNoCal
          ((MAX_READING Family.esp32 : Nat) : Int) 3).1 = Res.ok maxMv :=
  C1_linear_scale Family.esp32 env0 sNoCal 3 2048 rfl (by decide) (by decide)

/-- C10: on the uncalibrated linear path, for raw ∈ [0, MAX_READING] and
the four defined attenuations, the computed millivolt value is at most
max_mv(attenuation), which is at most 3100 across all families, so the
narrowing of the 32-bit intermediate value to the 16-bit return type
never truncates. -/
theorem C10_no_truncation (fam : Family) (env : AdcEnv) (s : AdcDriver)
    (atten raw : Nat) (hcal : s.cal_characteristics = none)
    (ha : atten < 4) (hraw : raw ≤ MAX_READING fam) :
    ∃ maxMv, get_max_mv fam atten = some maxMv ∧ maxMv ≤ 3100 ∧
      (raw_to_voltage fam env s (raw : Int) atten).1 =
        Res.ok (raw * maxMv / MAX_READING fam) ∧
      raw * maxMv / MAX_READING fam ≤ maxMv ∧
      raw * maxMv / MAX_READING fam < 2 ^ 16 ∧
      raw * maxMv / MAX_READING fam % 2 ^ 16 =
        raw * maxMv / MAX_READING fam := by
  obtain ⟨maxMv, hm⟩ := get_max_mv_isSome fam atten ha
  have hle := get_max_mv_le fam atten maxMv hm
  have hM8 := MAX_READING_le fam
  have hlin := linear_mv_eq fam maxMv raw hle hraw
  refine ⟨maxMv, hm, hle, ?_, hlin.2.1, by omega, hlin.2.2⟩
  rw [raw_to_voltage_linear fam env s _ atten maxMv hcal hm]
  have hu : u32_of_i32 (raw : Int) = raw :=
    u32_of_i32_ofNat raw (by omega)
  rw [hu, hlin.1, hlin.2.2]

/-- Witness for C10 at esp32s2 full scale. -/
theorem C10_no_truncation_witness :
    ∃ maxMv, get_max_mv Family.esp32s2 3 = some maxMv ∧ maxMv ≤ 3100 ∧
      (raw_to_voltage Family.esp32s2 env0 sNoCal ((8191 : Nat) : Int) 3).1 =
        Res.ok (8191 * maxMv / MAX_READING Family.esp32s2) ∧
      8191 * maxMv / MAX_READING Family.esp32s2 ≤ maxMv ∧
      8191 * maxMv / MAX_READING Family.esp32s2 < 2 ^ 16 ∧
      8191 * maxMv / MAX_READING Family.esp32s2 % 2 ^ 16 =
        8191 * maxMv / MAX_READING Family.esp32s2 :=
  C10_no_truncation Family.esp32s2 env0 sNoCal 3 8191 rfl (by decide) (by decide)

/-- A fresh calibration-enabled handle after `j + 1` reads at
attenuation `a` on the primary unit: the first read characterizes once
and populates the entry, the later reads only consume raw samples. -/
theorem readIter_fresh (fam : Family) (env : AdcEnv) (r : Resolution)
    (channel a j : Nat) (ha : a < 4) (he : env.efuse_result = 0) :
    readIter fam env 1 channel a
      { resolution := r
        cal_characteristics := some (fun _ => none)
        charCount := 0
        rawCount := 0 } (j + 1) =
      { resolution := r
        cal_characteristics :=
          some (fun i => if i.val = a then some (env.characterize 0) else none)
        charCount := 1
        rawCount := j + 1 } := by
  have hstep : read fam env
      { resolution := r
        cal_characteristics := some (fun _ => none)
        charCount := 0
        rawCount := 0 } 1 channel a =
      (ReadRes.ok (env.cal_raw_to_voltage (env.characterize 0)
          (u32_of_i32 (env.adc1_get_raw channel 0)) % 2 ^ 16),
        { resolution := r
          cal_characteristics :=
            some (fun i => if i.val = a then some (env.characterize 0) else none)
          charCount := 1
          rawCount := 1 }) := by
    rw [read_first fam env _ channel a ha (fun _ => none) rfl rfl he]
  have hcached := readIter_cached fam env channel a ha
      (fun i => if i.val = a then some (env.characterize 0) else none)
      (env.characterize 0) (by simp) j
      { resolution := r
        cal_characteristics :=
          some (fun i => if i.val = a then some (env.characterize 0) else none)
        charCount := 1
        rawCount := 1 } rfl
  have h1 : readIter fam env 1 channel a
      { resolution := r
        cal_characteristics := some (fun _ => none)
        charCount := 0
        rawCount := 0 } (j + 1) =
      readIter fam env 1 channel a
        { resolution := r
          cal_characteristics :=
            some (fun i => if i.val = a then some (env.characterize 0)
                           else none)
          charCount := 1
          rawCount := 1 } j := by
    rw [readIter, hstep]
  rw [h1, hcached]
  simp [Nat.add_comm 1 j]

/-- C2: on a handle created with calibration enabled, k ≥ 1 reads at the
same attenuation characterize exactly once (on the first read, counter =
1 ever after), the cached entry holds the bit-identical first
characterization result, every subsequent read converts with exactly
that cached value without characterizing again, and — for the remaining
lifetime of the handle — a read at any unit, channel and attenuation never
overwrites a populated entry. -/
theorem C2_cal_cache (fam : Family) (env : AdcEnv) (r : Resolution)
    (s0 : AdcDriver) (channel a k : Nat)
    (hnew : AdcDriver.new env 1 r true = Res.ok s0)
    (ha : a < 4) (hk : 1 ≤ k) :
    (readIter fam env 1 channel a s0 k).charCount = 1 ∧
    (∃ tbl, (readIter fam env 1 channel a s0 k).cal_characteristics = some tbl ∧
        tbl ⟨a, ha⟩ = some (env.characterize 0)) ∧
    (read fam env (readIter fam env 1 channel a s0 k) 1 channel a).1 =
      ReadRes.ok (env.cal_raw_to_voltage (env.characterize 0)
        (u32_of_i32 (env.adc1_get_raw channel k)) % 2 ^ 16) ∧
    (read fam env (readIter fam env 1 channel a s0 k) 1 channel a).2.charCount
      = 1 ∧
    (∀ (s : AdcDriver) (tbl : Fin 4 → Option Cal) (c : Cal) (u ch b : Nat),
      s.cal_characteristics = some tbl → tbl ⟨a, ha⟩ = some c →
      ∃ tbl2, (read fam env s u ch b).2.cal_characteristics = some tbl2 ∧
        tbl2 ⟨a, ha⟩ = some c) := by
  obtain ⟨he, hw, hs0⟩ := new_cal_ok env r s0 hnew
  subst hs0
  obtain ⟨j, rfl⟩ : ∃ j, k = j + 1 := ⟨k - 1, by omega⟩
  rw [readIter_fresh fam env r channel a j ha he]
  have hread := read_cached fam env
      { resolution := r
        cal_characteristics :=
          some (fun i => if i.val = a then some (env.characterize 0) else none)
        charCount := 1
        rawCount := j + 1 } channel a ha
      (fun i => if i.val = a then some (env.characterize 0) else none)
      (env.characterize 0) rfl (by simp)
  refine ⟨rfl, ⟨_, rfl, by simp⟩, ?_, ?_, ?_⟩
  · rw [hread]
  · rw [hread]
  · intro s tbl c u ch b hs hc
    exact read_preserves_entry fam env s u ch b a ha tbl c hs hc

/-- An environment whose characterization results and raw samples vary
with the call index, to make "exactly once" and "bit-identical"
observable. -/
def envW : AdcEnv :=
  { env0 with
    characterize := fun n => 100 + n
    cal_raw_to_voltage := fun c raw => c * 1000 + raw
    adc1_get_raw := fun _ n => 1000 + n }

/-- The fresh calibration-enabled handle for the C2 witness. -/
def s0W : AdcDriver where
  resolution := Resolution.Resolution12Bit
  cal_characteristics := some (fun _ => none)
  charCount := 0
  rawCount := 0

/-- Witness for C2 at two reads on attenuation 1. -/
theorem C2_cal_cache_witness :
    (readIter Family.esp32 envW 1 4 1 s0W 2).charCount = 1 ∧
    (∃ tbl, (readIter Family.esp32 envW 1 4 1 s0W 2).cal_characteristics =
        some tbl ∧ tbl ⟨1, by omega⟩ = some (envW.characterize 0)) ∧
    (read Family.esp32 envW (readIter Family.esp32 envW 1 4 1 s0W 2) 1 4 1).1 =
      ReadRes.ok (envW.cal_raw_to_voltage (envW.characterize 0)
        (u32_of_i32 (envW.adc1_get_raw 4 2)) % 2 ^ 16) ∧
    (read Family.esp32 envW
        (readIter Family.esp32 envW 1 4 1 s0W 2) 1 4 1).2.charCount = 1 ∧
    (∀ (s : AdcDriver) (tbl : Fin 4 → Option Cal) (c : Cal) (u ch b : Nat),
      s.cal_characteristics = some tbl → tbl ⟨1, by omega⟩ = some c →
      ∃ tbl2,
        (read Family.esp32 envW s u ch b).2.cal_characteristics = some tbl2 ∧
        tbl2 ⟨1, by omega⟩ = some c) :=
  C2_cal_cache Family.esp32 envW Resolution.Resolution12Bit s0W 4 1 2 rfl
    (by omega) (by omega)

end EspIdfHal
